import Mathlib

/-!
Verification of the EUR-Lex directory harvester
(`src/scraper/directory_scraper.py` and `src/database/db_manager.py` of
`eu_legal_analyzer`), shallowly embedded in Lean 4.

Conventions of the embedding:
* Python dicts holding a scraped act become the structure `Act` whose fields
  are `Option String` (a missing dict key is `none`).
* Network I/O is an explicit environment `Env`: a page fetch returns
  `Option …`, `none` standing for a raised transport error that the source
  catches (`requests` exceptions / `raise_for_status`).
* The `while` pagination loop of `_perform_search` is embedded with an
  explicit fuel parameter; `perform_search` passes `maxResults + 1` fuel,
  and a lemma shows the `fuelOut` result is unreachable with that fuel,
  which is the loop's termination argument made explicit.
* The SQLite table `legal_acts` is a `List LegalActRow`; `INSERT OR REPLACE`
  with the `UNIQUE celex_number` column deletes the conflicting row and
  appends the new one, and a `NULL` in the `NOT NULL title` column makes the
  statement fail (SQLite's REPLACE resolution falls back to ABORT for a
  NOT NULL column without a default), modelled as the `none` result of
  `save_legal_act`.
* `re.search` calls are embedded as explicit left-to-right scanners over
  `List Char` with the same pattern semantics.
-/

/-- `Option.orElse` specialised and strict: first value if present, else second.
Mirrors Python's "use the value found earlier; otherwise fall back". -/
def orE (a b : Option String) : Option String :=
  match a with
  | some v => some v
  | none => b

/-- First element of the list on which `f` yields a value; the "first matching
selector wins" loop shape used throughout the scraper. -/
def firstHit (f : α → Option β) : List α → Option β
  | [] => none
  | x :: xs =>
    match f x with
    | some v => some v
    | none => firstHit f xs

/-- Value of the last list entry satisfying `p` (later entries overwrite
earlier ones, as in a fold that keeps reassigning a dict key). -/
def lastVal (p : String × String → Bool) : List (String × String) → Option String
  | [] => none
  | r :: rs => orE (lastVal p rs) (if p r then some r.2 else none)

/-- Does `n` stand at the head of `l`? (`startswith` on character lists). -/
def startsWithL : List Char → List Char → Bool
  | [], _ => true
  | _ :: _, [] => false
  | n :: ns, h :: hs => n == h && startsWithL ns hs

/-- Does `n` occur contiguously inside `l`? Python's `needle in haystack`. -/
def hasSub (n : List Char) : List Char → Bool
  | [] => n.isEmpty
  | c :: t => startsWithL n (c :: t) || hasSub n t

/-- Python `str.lower()` restricted to ASCII, which is all the scraper's
metadata keys use. -/
def lowerStr (s : String) : String := String.mk (s.data.map Char.toLower)

/-- Case-insensitive character comparison, for `re.IGNORECASE` patterns. -/
def ciEq (a b : Char) : Bool := a.toLower == b.toLower

/-- Case-insensitive "the word `w` stands at the head of `l`". -/
def ciWordAt : List Char → List Char → Bool
  | [], _ => true
  | _ :: _, [] => false
  | x :: xs, y :: ys => ciEq x y && ciWordAt xs ys

/-- A regex word character, `[A-Za-z0-9_]`, for `\b` boundaries. -/
def isWordChar (c : Char) : Bool := c.isAlphanum || c == '_'

/-- The CELEX structural pattern `[0-9]{5}X[0-9]{4}` read off the head of a
character list; `letterOk` is the class of the sixth character (`[A-Z]`, or
`[A-Za-z]` under `re.IGNORECASE`). Returns the ten matched characters. -/
def celexHead (letterOk : Char → Bool) (l : List Char) : Option (List Char) :=
  match l with
  | d1 :: d2 :: d3 :: d4 :: d5 :: a :: e1 :: e2 :: e3 :: e4 :: _ =>
    if d1.isDigit && d2.isDigit && d3.isDigit && d4.isDigit && d5.isDigit
        && letterOk a
        && e1.isDigit && e2.isDigit && e3.isDigit && e4.isDigit then
      some [d1, d2, d3, d4, d5, a, e1, e2, e3, e4]
    else
      none
  | _ => none

/-- Does a whole string have the fixed CELEX shape: exactly 5 digits, then
1 letter, then 4 digits? The shape the spec asserts for every extracted
identifier. -/
def isCelexShape (l : List Char) : Bool :=
  match l with
  | [d1, d2, d3, d4, d5, a, e1, e2, e3, e4] =>
    d1.isDigit && d2.isDigit && d3.isDigit && d4.isDigit && d5.isDigit
      && a.isAlpha
      && e1.isDigit && e2.isDigit && e3.isDigit && e4.isDigit
  | _ => false

/-- One attempt of `re.search(r'CELEX:?([0-9]{5}[A-Z][0-9]{4})', url, re.IGNORECASE)`
at the head of `l`: the literal `CELEX` (any case), an optional colon, then the
ten-character pattern (letter of either case under IGNORECASE). The colon
branch backtracks exactly as the regex engine would. -/
def tryCelexColonAt (l : List Char) : Option (List Char) :=
  if ciWordAt "CELEX".data l then
    match l.drop 5 with
    | ':' :: rest2 =>
      (match celexHead Char.isAlpha rest2 with
       | some m => some m
       | none => celexHead Char.isAlpha (l.drop 5))
    | _ => celexHead Char.isAlpha (l.drop 5)
  else
    none

/-- Leftmost match of the `CELEX:?(pattern)` search over the whole input. -/
def searchCelexColon : List Char → Option (List Char)
  | [] => none
  | c :: rest =>
    match tryCelexColonAt (c :: rest) with
    | some m => some m
    | none => searchCelexColon rest

/-- One attempt of the fallback `re.search(r'celex[=:]([^&/]+)', url, re.IGNORECASE)`
at the head of `l`: literal `celex` (any case), `=` or `:`, then a greedy
non-empty run of characters other than `&` and `/`. -/
def tryCelexKVAt (l : List Char) : Option (List Char) :=
  if ciWordAt "celex".data l then
    match l.drop 5 with
    | s :: rest =>
      if s == '=' || s == ':' then
        match rest.takeWhile (fun c => !(c == '&') && !(c == '/')) with
        | [] => none
        | g => some g
      else
        none
    | [] => none
  else
    none

/-- Leftmost match of the fallback `celex[=:]([^&/]+)` search. -/
def searchCelexKV : List Char → Option (List Char)
  | [] => none
  | c :: rest =>
    match tryCelexKVAt (c :: rest) with
    | some m => some m
    | none => searchCelexKV rest

/-- `EURLexDirectoryScraper._extract_celex_from_url`: the strict
`CELEX:?(…)` pattern first, then the loose `celex[=:]([^&/]+)` fallback. -/
def extract_celex_from_url (url : String) : Option String :=
  match searchCelexColon url.data with
  | some m => some (String.mk m)
  | none => (searchCelexKV url.data).map (fun g => String.mk g)

/-- `\b` holds before the current position: start of input or a preceding
non-word character. -/
def boundaryBefore (pre : Option Char) : Bool :=
  match pre with
  | none => true
  | some p => !(isWordChar p)

/-- `\b` holds after the match: end of input or a following non-word
character. -/
def boundaryAfterOk (l : List Char) : Bool :=
  match l with
  | [] => true
  | a :: _ => !(isWordChar a)

/-- `re.search(r'\b([0-9]{5}[A-Z][0-9]{4})\b', text)` scanned left to right;
`pre` is the character before the current position (`none` at the start),
used for the leading `\b`. -/
def searchCelexText (pre : Option Char) : List Char → Option (List Char)
  | [] => none
  | c :: rest =>
    match (if boundaryBefore pre then celexHead Char.isUpper (c :: rest) else none) with
    | some m =>
      if boundaryAfterOk ((c :: rest).drop 10) then some m
      else searchCelexText (some c) rest
    | none => searchCelexText (some c) rest

/-- `EURLexDirectoryScraper._extract_celex_from_text`: the standard CELEX
pattern with word boundaries, upper-case letter only (no IGNORECASE). -/
def extract_celex_from_text (t : String) : Option String :=
  (searchCelexText none t.data).map (fun m => String.mk m)

/-- A scraped act: the Python dict passed around `directory_scraper.py`.
Every field is optional because every dict key may be absent; `celex_number`
is the document identifier. -/
structure Act where
  celex_number : Option String := none
  title : Option String := none
  url : Option String := none
  document_type : Option String := none
  date_document : Option String := none
  summary : Option String := none
  content : Option String := none
  subject_matter : Option String := none
  directory_code : Option String := none
  keywords : Option String := none
  date_force : Option String := none
  date_end_validity : Option String := none
  legal_basis : Option String := none
  procedure : Option String := none
  addressee : Option String := none
deriving DecidableEq, Repr

/-- A row of the SQLite table `legal_acts` (`DatabaseManager.init_database`),
restricted to the columns `save_legal_act` writes from the act dict.
`title` is `TEXT NOT NULL`, so it is a plain `String`; `celex_number` is
`TEXT UNIQUE` and nullable. The `embedding` BLOB and the timestamp columns
carry no claim and are left out. -/
structure LegalActRow where
  celex_number : Option String
  title : String
  document_type : Option String
  subject_matter : Option String
  directory_code : Option String
  date_document : Option String
  date_force : Option String
  date_end_validity : Option String
  content : Option String
  summary : Option String
  keywords : Option String
  url : Option String
deriving DecidableEq, Repr

/-- The row `DatabaseManager.save_legal_act` binds for an act whose title is
present. -/
def mkLegalActRow (a : Act) (t : String) : LegalActRow :=
  { celex_number := a.celex_number
    title := t
    document_type := a.document_type
    subject_matter := a.subject_matter
    directory_code := a.directory_code
    date_document := a.date_document
    date_force := a.date_force
    date_end_validity := a.date_end_validity
    content := a.content
    summary := a.summary
    keywords := a.keywords
    url := a.url }

/-- `DatabaseManager.save_legal_act`: `INSERT OR REPLACE INTO legal_acts …`.
With `title = NULL` the `NOT NULL` constraint makes SQLite abort the statement
(REPLACE resolution has no default to substitute), modelled as `none` — the
`sqlite3.IntegrityError` the callers catch. Otherwise, REPLACE deletes any row
with the same non-null `celex_number` (the UNIQUE column; SQLite lets several
NULLs coexist) and appends the new row. -/
def save_legal_act (db : List LegalActRow) (a : Act) : Option (List LegalActRow) :=
  match a.title with
  | none => none
  | some t =>
    match a.celex_number with
    | some c =>
      some ((db.filter (fun r => !(r.celex_number == some c))) ++ [mkLegalActRow a t])
    | none => some (db ++ [mkLegalActRow a t])

/-- `DatabaseManager` state read by `_load_existing_celexes`: the non-null
`celex_number` keys of the stored rows. The source builds a Python set of
them; the list here is read only through membership. -/
def load_existing_celexes (db : List LegalActRow) : List String :=
  db.filterMap (fun r => r.celex_number)

/-- One search-result item of a listing page, as the CSS-selector rules of
`_parse_search_result_comprehensive` see it: for each rule list, the text the
item yields under each selector in order (`none` = selector matched nothing).
`titleSel` entries carry (text, href) of the title link. -/
structure ResultItem where
  titleSel : List (Option (String × String)) := []
  docTypeSel : List (Option String) := []
  dateSel : List (Option String) := []
  summarySel : List (Option String) := []
  celexSel : List (Option String) := []
deriving Repr

/-- `urljoin(self.base_url, href)` abstracted to the href itself: no claim
depends on URL resolution, only on which link was chosen. -/
def url_join (href : String) : String := href

/-- `EURLexDirectoryScraper._parse_search_result_comprehensive`: build the act
dict field by field, first matching selector per field; resolve the identifier
from the title link's URL, falling back to the celex-selector texts; return
the act only if an identifier was resolved. The body's `try/except` cannot
fire in this embedding (all operations are total), matching the claim that a
missing field is left absent rather than raised. -/
def parse_search_result (item : ResultItem) : Option Act :=
  let a1 : Act :=
    match firstHit id item.titleSel with
    | some p =>
      { title := some p.1, url := some (url_join p.2)
        celex_number := extract_celex_from_url p.2 }
    | none => {}
  let a2 : Act :=
    { a1 with
      document_type := firstHit id item.docTypeSel
      date_document := firstHit id item.dateSel
      summary := firstHit id item.summarySel }
  let a3 : Act :=
    match a2.celex_number with
    | some _ => a2
    | none =>
      { a2 with
        celex_number := firstHit (fun o => o.bind extract_celex_from_text) item.celexSel }
  match a3.celex_number with
  | some _ => some a3
  | none => none

/-- The identifier `_parse_search_result_comprehensive` can resolve for an
item: from the first title link's URL, else from the first celex-selector
text that contains the pattern. -/
def resolveId (item : ResultItem) : Option String :=
  orE ((firstHit id item.titleSel).bind (fun p => extract_celex_from_url p.2))
      (firstHit (fun o => o.bind extract_celex_from_text) item.celexSel)

/-- A document detail page, as `_get_detailed_act_info` and
`_extract_comprehensive_metadata` query it through BeautifulSoup:
* `titleSel` / `contentSel`: the text under each title / content selector, in
  the source's selector order (`none` = no element matched);
* `testid`: text of the first `dd`/`span`/`div` carrying a given
  `data-testid` attribute;
* `tableRows`: the (key, value) cell pairs of all `table.metadata` rows with
  at least two cells, in document order;
* `dlPairs`: the (dt text, dd text) pairs of the page's definition lists, in
  document order. -/
structure DetailPage where
  titleSel : List (Option String) := []
  contentSel : List (Option String) := []
  testid : String → Option String := fun _ => none
  tableRows : List (String × String) := []
  dlPairs : List (String × String) := []

/-- The metadata dict `_extract_comprehensive_metadata` builds: one optional
entry per target field. -/
@[ext]
structure Metadata where
  subject_matter : Option String := none
  directory_code : Option String := none
  date_force : Option String := none
  date_end_validity : Option String := none
  keywords : Option String := none
  legal_basis : Option String := none
  procedure : Option String := none
  addressee : Option String := none
deriving DecidableEq, Repr

/-- First alias in `metadata_mappings[field]` whose `data-testid` lookup
finds an element. -/
def firstTestId (page : DetailPage) (aliases : List String) : Option String :=
  firstHit page.testid aliases

/-- Layer 1 of `_extract_comprehensive_metadata`: the `data-testid` lookups,
with the alias lists of `metadata_mappings`, first hit per field. -/
def metadataLayer1 (page : DetailPage) : Metadata :=
  { subject_matter := firstTestId page ["subject-matter", "subject", "subjects"]
    directory_code := firstTestId page ["directory-code", "directory", "classification"]
    date_force := firstTestId page ["date-force", "entry-into-force", "force-date"]
    date_end_validity := firstTestId page ["date-end-validity", "end-validity", "validity-end"]
    keywords := firstTestId page ["keywords", "descriptors", "terms"]
    legal_basis := firstTestId page ["legal-basis", "basis", "legal-base"]
    procedure := firstTestId page ["procedure", "legislative-procedure"]
    addressee := firstTestId page ["addressee", "addressed-to"] }

/-- `'needle' in key.lower()` of the scanning layers. -/
def hasKey (r : String × String) (needle : String) : Bool :=
  hasSub needle.data (lowerStr r.1).data

def pSubK (r : String × String) : Bool := hasKey r "subject"

def pDirRawT (r : String × String) : Bool :=
  hasKey r "directory" || hasKey r "classification"

def pKeyRawT (r : String × String) : Bool :=
  hasKey r "keyword" || hasKey r "descriptor"

def pForceRaw (r : String × String) : Bool :=
  hasKey r "force" && hasKey r "date"

def pValRaw (r : String × String) : Bool :=
  hasKey r "validity" && hasKey r "end"

def pDirRawD (r : String × String) : Bool := hasKey r "directory"

def pKeyRawD (r : String × String) : Bool := hasKey r "keyword"

/-- Layer 2, one table row: the `if/elif` chain over the lowered key. Each
assignment overwrites whatever the dict already holds for that field. -/
def tableStep (m : Metadata) (r : String × String) : Metadata :=
  if pSubK r then { m with subject_matter := some r.2 }
  else if pDirRawT r then { m with directory_code := some r.2 }
  else if pKeyRawT r then { m with keywords := some r.2 }
  else if pForceRaw r then { m with date_force := some r.2 }
  else if pValRaw r then { m with date_end_validity := some r.2 }
  else m

/-- Layer 3, one `dt`/`dd` pair: the shorter `if/elif` chain, again
overwriting. -/
def dlStep (m : Metadata) (r : String × String) : Metadata :=
  if pSubK r then { m with subject_matter := some r.2 }
  else if pDirRawD r then { m with directory_code := some r.2 }
  else if pKeyRawD r then { m with keywords := some r.2 }
  else m

/-- `EURLexDirectoryScraper._extract_comprehensive_metadata`: the testid
layer, then the metadata-table scan, then the definition-list scan, each
later layer writing over the dict entries of the earlier ones. -/
def extract_comprehensive_metadata (page : DetailPage) : Metadata :=
  page.dlPairs.foldl dlStep (page.tableRows.foldl tableStep (metadataLayer1 page))

/-- Effective predicate of the table scan's `directory_code` branch: the row
reaches it only past the subject branch. -/
def eDirT (r : String × String) : Bool := !pSubK r && pDirRawT r

def eKeyT (r : String × String) : Bool := !pSubK r && !pDirRawT r && pKeyRawT r

def eForceT (r : String × String) : Bool :=
  !pSubK r && !pDirRawT r && !pKeyRawT r && pForceRaw r

def eValT (r : String × String) : Bool :=
  !pSubK r && !pDirRawT r && !pKeyRawT r && !pForceRaw r && pValRaw r

def eDirD (r : String × String) : Bool := !pSubK r && pDirRawD r

def eKeyD (r : String × String) : Bool := !pSubK r && !pDirRawD r && pKeyRawD r

/-- What the metadata extractor actually computes, per field: the last
matching definition-list pair wins over the last matching table row, which
wins over the first testid alias hit; `legal_basis`, `procedure` and
`addressee` are only ever served by the testid layer. This is the amended
form of the "first non-empty match wins" claim. -/
def amendedMetadata (page : DetailPage) : Metadata :=
  let p1 := metadataLayer1 page
  { subject_matter :=
      orE (lastVal pSubK page.dlPairs)
        (orE (lastVal pSubK page.tableRows) p1.subject_matter)
    directory_code :=
      orE (lastVal eDirD page.dlPairs)
        (orE (lastVal eDirT page.tableRows) p1.directory_code)
    keywords :=
      orE (lastVal eKeyD page.dlPairs)
        (orE (lastVal eKeyT page.tableRows) p1.keywords)
    date_force := orE (lastVal eForceT page.tableRows) p1.date_force
    date_end_validity := orE (lastVal eValT page.tableRows) p1.date_end_validity
    legal_basis := p1.legal_basis
    procedure := p1.procedure
    addressee := p1.addressee }

/-- Why `_perform_search`'s pagination loop stopped. `fuelOut` is an artifact
of the fuel embedding; `perform_search_fuel_enough` shows it never occurs at
the fuel `perform_search` supplies. -/
inductive StopReason
  | exhausted
  | budgetReached
  | transportError
  | fuelOut
deriving DecidableEq, Repr

/-- Is the act's identifier already in `processed`? The
`act.get('celex_number') not in self.processed_celexes` filter. -/
def celexKnown (a : Act) (processed : List String) : Bool :=
  match a.celex_number with
  | some c => processed.contains c
  | none => false

/-- The body of `_perform_search`'s `while len(acts) < max_results` loop.
`fetch page` is the listing request for one page: `none` is a raised
transport error (caught: log, `break`), `some items` the parsed result items.
Mirrors the source order: guard, fetch, empty-page check, parse + dedup
filter, extend, zero-new-stubs check, next page; every exit returns
`acts[:max_results]`. -/
def perform_search_aux (fetch : Nat → Option (List ResultItem))
    (processed : List String) (maxResults : Nat) :
    Nat → Nat → List Act → List Act × StopReason
  | 0, _, acts => (acts.take maxResults, StopReason.fuelOut)
  | fuel + 1, page, acts =>
    if acts.length < maxResults then
      match fetch page with
      | none => (acts.take maxResults, StopReason.transportError)
      | some items =>
        if items.isEmpty then (acts.take maxResults, StopReason.exhausted)
        else
          match (items.filterMap parse_search_result).filter
              (fun a => !(celexKnown a processed)) with
          | [] => (acts.take maxResults, StopReason.exhausted)
          | pageActs =>
            perform_search_aux fetch processed maxResults fuel (page + 1)
              (acts ++ pageActs)
    else
      (acts.take maxResults, StopReason.budgetReached)

/-- `EURLexDirectoryScraper._perform_search`, starting at page 1 with no
accumulated acts. Each loop pass that recurses adds at least one act, so
`maxResults + 1` fuel is enough for the loop to reach one of its real exits. -/
def perform_search (fetch : Nat → Option (List ResultItem))
    (processed : List String) (maxResults : Nat) : List Act × StopReason :=
  perform_search_aux fetch processed maxResults (maxResults + 1) 1 []

/-- A discovery query: one of the parameterised searches the strategies
issue (`_search_by_document_type`, `_search_by_year`, `_search_by_subject`). -/
inductive SQuery
  | byType (code : String)
  | byYear (year : Nat)
  | bySubject (subject : String)
deriving DecidableEq, Repr

/-- The external world: listing search pages per query and page number, the
detail page per CELEX identifier, and the recent-legislation page's
`legal-content` link hrefs. `none` anywhere is a transport failure. -/
structure Env where
  searchPage : SQuery → Nat → Option (List ResultItem)
  detailPage : String → Option DetailPage
  recentLinks : Option (List String)

/-- Scraper-plus-database state threaded through a run: the stored rows and
the `processed_celexes` set (a list read and extended only through
membership). -/
structure ScrapeState where
  db : List LegalActRow
  processed : List String
deriving Repr

/-- `EURLexDirectoryScraper.__init__` + `_load_existing_celexes`: seed the
dedup registry from the database's stored identifiers. -/
def initScrapeState (db : List LegalActRow) : ScrapeState :=
  { db := db, processed := load_existing_celexes db }

/-- `set.add` on the processed-identifiers list. -/
def insertCelex (c : String) (l : List String) : List String :=
  if l.contains c then l else c :: l

def doc_url (c : String) : String :=
  "https://eur-lex.europa.eu/legal-content/EN/TXT/?uri=CELEX:" ++ c

/-- The content-selector loop of `_get_detailed_act_info`: first present
selector whose text is longer than 100 characters, truncated to 10000;
otherwise the field is left as it was. -/
def contentOf (page : DetailPage) (old : Option String) : Option String :=
  match (page.contentSel.filterMap id).find? (fun s => 100 < s.length) with
  | some s => some (s.take 10000)
  | none => old

/-- `detailed_act.update(metadata)`: keys present in the metadata dict
overwrite the act's fields. -/
def applyMeta (d : Act) (m : Metadata) : Act :=
  { d with
    subject_matter := orE m.subject_matter d.subject_matter
    directory_code := orE m.directory_code d.directory_code
    date_force := orE m.date_force d.date_force
    date_end_validity := orE m.date_end_validity d.date_end_validity
    keywords := orE m.keywords d.keywords
    legal_basis := orE m.legal_basis d.legal_basis
    procedure := orE m.procedure d.procedure
    addressee := orE m.addressee d.addressee }

/-- `EURLexDirectoryScraper._get_detailed_act_info`, one worker task: bail
out without an identifier, skip an identifier already in `processed_celexes`
(the lock-protected membership check), fetch the detail page (`none` = caught
transport error → task yields nothing), then enrich: document URL, title
fallback, bounded content, metadata. -/
def get_detailed_act_info (env : Env) (processed : List String) (a : Act) :
    Option Act :=
  match a.celex_number with
  | none => none
  | some c =>
    if processed.contains c then none
    else
      match env.detailPage c with
      | none => none
      | some page =>
        let d0 : Act := { a with url := some (doc_url c) }
        let d1 : Act :=
          match d0.title with
          | some _ => d0
          | none =>
            match firstHit id page.titleSel with
            | some t => { d0 with title := some t }
            | none => d0
        let d2 : Act := { d1 with content := contentOf page d1.content }
        applyMeta d2 (extract_comprehensive_metadata page)

/-- One completed future of `_process_and_save_acts`: a task that yielded a
detailed act is saved (a persistence error is caught: logged, `continue`,
nothing counted), and on success its identifier is added to
`processed_celexes` and the saved counter incremented. -/
def processOne (env : Env) (st : ScrapeState) (a : Act) : ScrapeState × Nat :=
  match get_detailed_act_info env st.processed a with
  | none => (st, 0)
  | some d =>
    match save_legal_act st.db d with
    | none => (st, 0)
    | some db2 =>
      ({ db := db2
         processed :=
           match d.celex_number with
           | some c => insertCelex c st.processed
           | none => st.processed }, 1)

/-- Fold a per-item action that returns (new state, saved count) over a list,
summing the counts — the accumulation shape shared by
`_process_and_save_acts` and the per-strategy query loops. -/
def foldQueries (f : ScrapeState → α → ScrapeState × Nat)
    (st : ScrapeState) (l : List α) : ScrapeState × Nat :=
  l.foldl (fun p a => ((f p.1 a).1, p.2 + (f p.1 a).2)) (st, 0)

/-- The race in `_process_and_save_acts` / `_get_detailed_act_info`, reduced
to its shared state: two pool workers handed the same identifier `c`. Each
worker advances through program counter 0 (membership check of
`processed_celexes` under `self.lock`; a hit ends the task), 1 (the detail
fetch), 2 (the main loop saves the result and, under the lock again, adds
`c`). Each numbered step is atomic — exactly the granularity at which the
source holds the lock — but nothing makes check-then-add one step. -/
structure RaceState where
  processed : List String
  pc1 : Nat
  pc2 : Nat
  fetches : Nat
  saves : Nat
deriving DecidableEq, Repr

/-- Advance one worker (`true` = worker 1) by one atomic step. -/
def raceStep (c : String) (st : RaceState) (w : Bool) : RaceState :=
  match (if w then st.pc1 else st.pc2) with
  | 0 =>
    if st.processed.contains c then
      if w then { st with pc1 := 9 } else { st with pc2 := 9 }
    else
      if w then { st with pc1 := 1 } else { st with pc2 := 1 }
  | 1 =>
    if w then { st with fetches := st.fetches + 1, pc1 := 2 }
    else { st with fetches := st.fetches + 1, pc2 := 2 }
  | 2 =>
    if w then
      { st with saves := st.saves + 1, processed := insertCelex c st.processed, pc1 := 3 }
    else
      { st with saves := st.saves + 1, processed := insertCelex c st.processed, pc2 := 3 }
  | _ => st

/-- Run an interleaving schedule over the two workers. -/
def raceRun (c : String) (sched : List Bool) (st : RaceState) : RaceState :=
  sched.foldl (raceStep c) st

/-- Both workers about to run, identifier not yet known. -/
def raceInit : RaceState :=
  { processed := [], pc1 := 0, pc2 := 0, fetches := 0, saves := 0 }

/-- `EURLexDirectoryScraper._process_and_save_acts`. The worker pool's
completion order is nondeterministic in the source; this embedding fixes the
submission order as the schedule (the claims settled against it are
schedule-independent: counting bounds and monotonicity). -/
def process_and_save_acts (env : Env) (st : ScrapeState) (acts : List Act) :
    ScrapeState × Nat :=
  foldQueries (processOne env) st acts

/-- One strategy iteration: search one query, then process and save what it
returned. -/
def scrape_one_query (env : Env) (st : ScrapeState) (q : SQuery)
    (maxResults : Nat) : ScrapeState × Nat :=
  process_and_save_acts env st
    (perform_search (env.searchPage q) st.processed maxResults).1

/-- The ten document types of `_scrape_by_document_types`. -/
def document_types : List (String × String) :=
  [("REG", "Regulation"), ("DIR", "Directive"), ("DEC", "Decision"),
   ("REC", "Recommendation"), ("OPI", "Opinion"), ("RES", "Resolution"),
   ("DEC_IMPL", "Implementing Decision"), ("REG_IMPL", "Implementing Regulation"),
   ("DIR_DELEG", "Delegated Directive"), ("REG_DELEG", "Delegated Regulation")]

/-- The twenty subject areas of `_scrape_by_subjects`. -/
def subject_areas : List String :=
  ["competition", "environment", "agriculture", "transport", "energy",
   "digital", "health", "consumer", "employment", "taxation",
   "trade", "migration", "security", "justice", "education",
   "research", "fisheries", "regional", "budget", "external"]

/-- `_scrape_by_years`: the current year and the nine before it, descending. -/
def yearsList (currentYear : Nat) : List Nat :=
  (List.range 10).map (fun i => currentYear - i)

/-- `EURLexDirectoryScraper._scrape_by_document_types`: one search per
document type, each with the SAME `max_per_type` budget. -/
def scrape_by_document_types (env : Env) (st : ScrapeState)
    (maxPerType : Nat) : ScrapeState × Nat :=
  foldQueries (fun s dt => scrape_one_query env s (SQuery.byType dt.1) maxPerType)
    st document_types

/-- `EURLexDirectoryScraper._scrape_by_years`. -/
def scrape_by_years (env : Env) (currentYear : Nat) (st : ScrapeState)
    (maxPerYear : Nat) : ScrapeState × Nat :=
  foldQueries (fun s y => scrape_one_query env s (SQuery.byYear y) maxPerYear)
    st (yearsList currentYear)

/-- `EURLexDirectoryScraper._scrape_by_subjects`. -/
def scrape_by_subjects (env : Env) (st : ScrapeState)
    (maxPerSubject : Nat) : ScrapeState × Nat :=
  foldQueries (fun s sub => scrape_one_query env s (SQuery.bySubject sub) maxPerSubject)
    st subject_areas

/-- `EURLexDirectoryScraper._scrape_recent_legislation`: fetch the recent
page (`none` = caught error → 0), take the first `max_acts` legal-content
links, keep those with an extractable, not-yet-processed identifier, and
process them. -/
def scrape_recent_legislation (env : Env) (st : ScrapeState)
    (maxActs : Nat) : ScrapeState × Nat :=
  match env.recentLinks with
  | none => (st, 0)
  | some links =>
    process_and_save_acts env st
      ((links.take maxActs).filterMap (fun href =>
        match extract_celex_from_url href with
        | some c =>
          if st.processed.contains c then none
          else some { celex_number := some c, url := some (url_join href) }
        | none => none))

/-- `EURLexDirectoryScraper.scrape_comprehensive_legal_acts`: the four
strategies run sequentially, each handed `max_acts // 4`; the counts are
summed. -/
def scrape_comprehensive_legal_acts (env : Env) (currentYear : Nat)
    (st : ScrapeState) (maxActs : Nat) : ScrapeState × Nat :=
  let r1 := scrape_by_document_types env st (maxActs / 4)
  let r2 := scrape_by_years env currentYear r1.1 (maxActs / 4)
  let r3 := scrape_by_subjects env r2.1 (maxActs / 4)
  let r4 := scrape_recent_legislation env r3.1 (maxActs / 4)
  (r4.1, r1.2 + r2.2 + r3.2 + r4.2)

/-- A listing item whose title link carries `celex=<code><i>` in its href:
resolvable only through the URL rule's loose fallback. -/
def itemT (code : String) (i : Nat) : ResultItem :=
  { titleSel := [some ("T", "celex=" ++ code ++ toString i)] }

/-- Environment for the budget counterexample: every document-type query has
one page with two fresh items, every other query is empty, every detail
fetch succeeds with a blank page (the stub already carries a title). -/
def envC2 : Env :=
  { searchPage := fun q page =>
      match q with
      | SQuery.byType code => if page == 1 then some [itemT code 0, itemT code 1] else some []
      | _ => some []
    detailPage := fun _ => some {}
    recentLinks := some [] }

/-- Listing fetch for the pagination counterexample: page 1 yields one item,
page 2 raises a transport error. -/
def fetchE (page : Nat) : Option (List ResultItem) :=
  if page == 1 then some [itemT "AA" 0] else none

/-- The act `itemT "AA" 0` parses to. -/
def actE : Act :=
  { celex_number := some "AA0", title := some "T", url := some "celex=AA0" }

/-- Detail page for the metadata counterexample: the testid layer knows the
subject matter as "A", and a metadata table row also carries a subject key
with value "B". -/
def cpage : DetailPage :=
  { testid := fun s => if s == "subject-matter" then some "A" else none
    tableRows := [("Subject", "B")] }

/-- Listing fetch that always raises: for the transport-error witness. -/
def envErr (_ : Nat) : Option (List ResultItem) := none

/-- An already-accumulated act for the transport-error witness. -/
def awAct : Act := { celex_number := some "32020R0100", title := some "w" }

/-- First submission for the upsert witness. -/
def upD1 : Act := { celex_number := some "32019R0001", title := some "old title" }

/-- Second submission for the upsert witness: same identifier, different
content. -/
def upD2 : Act :=
  { celex_number := some "32019R0001", title := some "new title"
    content := some "body" }

/-- Environment for the missing-title witness: the detail page exists but
offers no title element. -/
def envT : Env :=
  { searchPage := fun _ _ => some []
    detailPage := fun _ => some {}
    recentLinks := none }

/-- A stub discovered without a title. -/
def enA : Act := { celex_number := some "32019R0002" }

/-- The enriched act `envT` produces for `enA`: url filled in, still no
title. -/
def dXres : Act :=
  { celex_number := some "32019R0002", url := some (doc_url "32019R0002") }

/-- Empty scraper state for witnesses. -/
def st0 : ScrapeState := initScrapeState []

/-- Invariant of the pagination loop, proved by induction on the fuel: with
fuel exceeding the remaining budget, the loop never runs out of fuel, its
result never exceeds the budget, and it stops with `budgetReached` exactly
when the truncated result fills the budget. -/
lemma psa_spec (fetch : Nat → Option (List ResultItem)) (processed : List String)
    (maxResults : Nat) :
    ∀ (fuel page : Nat) (acts : List Act), maxResults - acts.length < fuel →
      ((perform_search_aux fetch processed maxResults fuel page acts).1.length ≤ maxResults)
      ∧ ((perform_search_aux fetch processed maxResults fuel page acts).2 = StopReason.budgetReached
          ↔ (perform_search_aux fetch processed maxResults fuel page acts).1.length = maxResults)
      ∧ (perform_search_aux fetch processed maxResults fuel page acts).2 ≠ StopReason.fuelOut := by
  intro fuel
  induction fuel with
  | zero => intro page acts h; exact absurd h (Nat.not_lt_zero _)
  | succ fuel ih =>
    intro page acts h
    by_cases hlt : acts.length < maxResults
    · simp only [perform_search_aux, if_pos hlt]
      cases hf : fetch page with
      | none =>
        refine ⟨by simp [List.length_take], ?_, by simp⟩
        constructor
        · intro hb; cases hb
        · intro hl; simp [List.length_take] at hl; omega
      | some items =>
        by_cases hemp : items.isEmpty
        · simp only [hemp, if_pos rfl]
          refine ⟨by simp [List.length_take], ?_, by simp⟩
          constructor
          · intro hb; cases hb
          · intro hl; simp [List.length_take] at hl; omega
        · simp only [hemp]
          cases hpa : (items.filterMap parse_search_result).filter
              (fun a => !(celexKnown a processed)) with
          | nil =>
            simp only []
            refine ⟨by simp [List.length_take], ?_, by simp⟩
            constructor
            · intro hb; cases hb
            · intro hl; simp [List.length_take] at hl; omega
          | cons pa pas =>
            have hlen : (acts ++ pa :: pas).length = acts.length + (pas.length + 1) := by
              simp [List.length_append]
            exact ih (page + 1) (acts ++ pa :: pas) (by omega)
    · simp only [perform_search_aux, if_neg hlt]
      refine ⟨by simp [List.length_take], ?_, by simp⟩
      simp only [List.length_take]
      constructor
      · intro _; omega
      · intro _; trivial

/-- C6: if fetching or processing a listing page raises a transport error,
`_perform_search` stops pagination for that query right there and returns
exactly the acts accumulated from the earlier pages — no retry, and the
failure is a normal return, not an exception to the caller. -/
theorem transport_error_stops_query (fetch : Nat → Option (List ResultItem))
    (processed : List String) (maxResults fuel page : Nat) (acts : List Act)
    (hlen : acts.length < maxResults) (herr : fetch page = none) :
    perform_search_aux fetch processed maxResults (fuel + 1) page acts
      = (acts, StopReason.transportError) := by
  simp only [perform_search_aux, if_pos hlen, herr]
  rw [List.take_of_length_le (Nat.le_of_lt hlen)]

/-- C6 witness: a query whose page 2 fails returns the single act
accumulated from page 1. -/
theorem transport_error_stops_query_witness :
    ([awAct] : List Act).length < 3 ∧ envErr 2 = none ∧
    perform_search_aux envErr [] 3 3 2 [awAct] = ([awAct], StopReason.transportError) :=
  ⟨by decide, rfl, transport_error_stops_query envErr [] 3 2 2 [awAct] (by decide) rfl⟩

/-- C3 (amended): the pagination loop terminates — the fuel bound
`maxResults + 1` is never exhausted, so the loop stops only through its real
exits: (a) a page with zero new stubs (`exhausted`), (b) the accumulated
count reaching the budget, with the result truncated to the budget
(`budgetReached`, which holds exactly when the result fills the budget), or
(c') a transport error. There is no hard page-count ceiling in the code. -/
theorem pagination_terminates_amended (fetch : Nat → Option (List ResultItem))
    (processed : List String) (maxResults : Nat) :
    (perform_search fetch processed maxResults).1.length ≤ maxResults ∧
    ((perform_search fetch processed maxResults).2 = StopReason.budgetReached
      ↔ (perform_search fetch processed maxResults).1.length = maxResults) ∧
    ((perform_search fetch processed maxResults).2 = StopReason.exhausted
      ∨ (perform_search fetch processed maxResults).2 = StopReason.budgetReached
      ∨ (perform_search fetch processed maxResults).2 = StopReason.transportError) := by
  unfold perform_search
  have h := psa_spec fetch processed maxResults (maxResults + 1) 1 []
    (by simp only [List.length_nil, Nat.sub_zero]; omega)
  refine ⟨h.1, h.2.1, ?_⟩
  cases hcase : (perform_search_aux fetch processed maxResults (maxResults + 1) 1 []).2 with
  | exhausted => exact Or.inl rfl
  | budgetReached => exact Or.inr (Or.inl rfl)
  | transportError => exact Or.inr (Or.inr rfl)
  | fuelOut => exact absurd hcase h.2.2

/-- C3 counterexample: a query whose page 1 yields one stub and whose page 2
fails stops through a transport error — fewer stubs than the budget, the
last page not parsed to zero stubs, and no page ceiling involved — so the
claim's list of exactly three stop conditions (zero stubs, budget, page
ceiling) does not hold as stated. -/
theorem pagination_stop_counterexample :
    perform_search fetchE [] 5 = ([actE], StopReason.transportError) ∧
    StopReason.transportError ≠ StopReason.exhausted ∧
    StopReason.transportError ≠ StopReason.budgetReached ∧
    ([actE] : List Act).length < 5 :=
  ⟨by decide, by decide, by decide, by decide⟩

lemma foldQueries_le_aux {α : Type} (f : ScrapeState → α → ScrapeState × Nat) (B : Nat)
    (hf : ∀ st a, (f st a).2 ≤ B) :
    ∀ (l : List α) (st : ScrapeState) (n : Nat),
      (l.foldl (fun p a => ((f p.1 a).1, p.2 + (f p.1 a).2)) (st, n)).2 ≤ n + l.length * B := by
  intro l
  induction l with
  | nil => intro st n; simp
  | cons a l ih =>
    intro st n
    simp only [List.foldl_cons]
    have h1 := ih (f st a).1 (n + (f st a).2)
    have h2 := hf st a
    have h3 : (a :: l).length * B = l.length * B + B := by
      simp [List.length_cons, Nat.succ_mul]
    omega

lemma foldQueries_le {α : Type} (f : ScrapeState → α → ScrapeState × Nat) (B : Nat)
    (hf : ∀ st a, (f st a).2 ≤ B) (l : List α) (st : ScrapeState) :
    (foldQueries f st l).2 ≤ l.length * B := by
  simpa [foldQueries] using foldQueries_le_aux f B hf l st 0

lemma foldQueries_mono_aux {α : Type} (f : ScrapeState → α → ScrapeState × Nat)
    (hf : ∀ st a, st.processed ⊆ (f st a).1.processed) :
    ∀ (l : List α) (st : ScrapeState) (n : Nat),
      st.processed ⊆ (l.foldl (fun p a => ((f p.1 a).1, p.2 + (f p.1 a).2)) (st, n)).1.processed := by
  intro l
  induction l with
  | nil => intro st n; exact fun x hx => hx
  | cons a l ih =>
    intro st n
    simp only [List.foldl_cons]
    exact fun x hx => ih (f st a).1 (n + (f st a).2) (hf st a hx)

lemma foldQueries_mono {α : Type} (f : ScrapeState → α → ScrapeState × Nat)
    (hf : ∀ st a, st.processed ⊆ (f st a).1.processed) (l : List α) (st : ScrapeState) :
    st.processed ⊆ (foldQueries f st l).1.processed := by
  simpa [foldQueries] using foldQueries_mono_aux f hf l st 0

lemma insertCelex_subset (c : String) (l : List String) : l ⊆ insertCelex c l := by
  intro x hx
  unfold insertCelex
  split
  · exact hx
  · exact List.mem_cons_of_mem _ hx

lemma processOne_le (env : Env) : ∀ (st : ScrapeState) (a : Act), (processOne env st a).2 ≤ 1 := by
  intro st a
  unfold processOne
  rcases hg : get_detailed_act_info env st.processed a with _ | d
  · simp
  · rcases hs : save_legal_act st.db d with _ | db2 <;> simp [hs]

lemma processOne_mono (env : Env) :
    ∀ (st : ScrapeState) (a : Act), st.processed ⊆ (processOne env st a).1.processed := by
  intro st a
  unfold processOne
  rcases hg : get_detailed_act_info env st.processed a with _ | d
  · exact fun x hx => hx
  · rcases hs : save_legal_act st.db d with _ | db2
    · simp only [hs]
      exact fun x hx => hx
    · simp only [hs]
      rcases hc : d.celex_number with _ | c
      · simp only [hc]
        exact fun x hx => hx
      · simp only [hc]
        exact insertCelex_subset c st.processed

lemma process_and_save_le (env : Env) (st : ScrapeState) (acts : List Act) :
    (process_and_save_acts env st acts).2 ≤ acts.length := by
  have h := foldQueries_le (processOne env) 1 (processOne_le env) acts st
  simpa [process_and_save_acts] using h

lemma process_and_save_mono (env : Env) (st : ScrapeState) (acts : List Act) :
    st.processed ⊆ (process_and_save_acts env st acts).1.processed :=
  foldQueries_mono (processOne env) (processOne_mono env) acts st

lemma perform_search_len (fetch : Nat → Option (List ResultItem))
    (processed : List String) (maxResults : Nat) :
    (perform_search fetch processed maxResults).1.length ≤ maxResults := by
  have h := psa_spec fetch processed maxResults (maxResults + 1) 1 []
    (by simp only [List.length_nil, Nat.sub_zero]; omega)
  simpa [perform_search] using h.1

lemma scrape_one_query_le (env : Env) (q : SQuery) (m : Nat) :
    ∀ (st : ScrapeState), (scrape_one_query env st q m).2 ≤ m := by
  intro st
  unfold scrape_one_query
  exact Nat.le_trans (process_and_save_le env st _) (perform_search_len _ _ m)

lemma scrape_one_query_mono (env : Env) (q : SQuery) (m : Nat) :
    ∀ (st : ScrapeState), st.processed ⊆ (scrape_one_query env st q m).1.processed := by
  intro st
  unfold scrape_one_query
  exact process_and_save_mono env st _

lemma scrape_by_document_types_le (env : Env) (st : ScrapeState) (m : Nat) :
    (scrape_by_document_types env st m).2 ≤ 10 * m := by
  have h := foldQueries_le (fun s dt => scrape_one_query env s (SQuery.byType dt.1) m) m
    (fun s dt => scrape_one_query_le env (SQuery.byType dt.1) m s) document_types st
  have hlen : document_types.length = 10 := rfl
  rw [hlen] at h
  exact h

lemma scrape_by_years_le (env : Env) (cy : Nat) (st : ScrapeState) (m : Nat) :
    (scrape_by_years env cy st m).2 ≤ 10 * m := by
  have h := foldQueries_le (fun s y => scrape_one_query env s (SQuery.byYear y) m) m
    (fun s y => scrape_one_query_le env (SQuery.byYear y) m s) (yearsList cy) st
  have hlen : (yearsList cy).length = 10 := by
    simp [yearsList]
  rw [hlen] at h
  exact h

lemma scrape_by_subjects_le (env : Env) (st : ScrapeState) (m : Nat) :
    (scrape_by_subjects env st m).2 ≤ 20 * m := by
  have h := foldQueries_le (fun s sub => scrape_one_query env s (SQuery.bySubject sub) m) m
    (fun s sub => scrape_one_query_le env (SQuery.bySubject sub) m s) subject_areas st
  have hlen : subject_areas.length = 20 := rfl
  rw [hlen] at h
  exact h

lemma scrape_recent_le (env : Env) (st : ScrapeState) (m : Nat) :
    (scrape_recent_legislation env st m).2 ≤ m := by
  unfold scrape_recent_legislation
  rcases hl : env.recentLinks with _ | links
  · simp
  · refine Nat.le_trans (process_and_save_le env st _) ?_
    refine Nat.le_trans (List.length_filterMap_le _ _) ?_
    exact List.length_take_le m links

lemma scrape_by_document_types_mono (env : Env) (st : ScrapeState) (m : Nat) :
    st.processed ⊆ (scrape_by_document_types env st m).1.processed := by
  unfold scrape_by_document_types
  apply foldQueries_mono
  exact fun s dt => scrape_one_query_mono env (SQuery.byType dt.1) m s

lemma scrape_by_years_mono (env : Env) (cy : Nat) (st : ScrapeState) (m : Nat) :
    st.processed ⊆ (scrape_by_years env cy st m).1.processed := by
  unfold scrape_by_years
  exact foldQueries_mono _ (fun s y => scrape_one_query_mono env (SQuery.byYear y) m s)
    (yearsList cy) st

lemma scrape_by_subjects_mono (env : Env) (st : ScrapeState) (m : Nat) :
    st.processed ⊆ (scrape_by_subjects env st m).1.processed := by
  unfold scrape_by_subjects
  exact foldQueries_mono _ (fun s sub => scrape_one_query_mono env (SQuery.bySubject sub) m s)
    subject_areas st

lemma scrape_recent_mono (env : Env) (st : ScrapeState) (m : Nat) :
    st.processed ⊆ (scrape_recent_legislation env st m).1.processed := by
  unfold scrape_recent_legislation
  rcases hl : env.recentLinks with _ | links
  · exact fun x hx => hx
  · exact process_and_save_mono env st _

/-- C2 (amended): each of the four strategies is handed `maxActs / 4`, but
the by-type, by-year and by-subject strategies apply that number per query
(10 document types, 10 years, 20 subjects); only the recent-listing strategy
treats it as its total. One comprehensive run therefore saves at most
`41 * (maxActs / 4)` documents, not `4 * (maxActs / 4)`. -/
theorem budget_total_amended (env : Env) (cy : Nat) (st : ScrapeState) (maxActs : Nat) :
    (scrape_comprehensive_legal_acts env cy st maxActs).2 ≤ 41 * (maxActs / 4) := by
  simp only [scrape_comprehensive_legal_acts]
  have h1 := scrape_by_document_types_le env st (maxActs / 4)
  have h2 := scrape_by_years_le env cy (scrape_by_document_types env st (maxActs / 4)).1 (maxActs / 4)
  have h3 := scrape_by_subjects_le env
    (scrape_by_years env cy (scrape_by_document_types env st (maxActs / 4)).1 (maxActs / 4)).1
    (maxActs / 4)
  have h4 := scrape_recent_le env
    (scrape_by_subjects env
      (scrape_by_years env cy (scrape_by_document_types env st (maxActs / 4)).1 (maxActs / 4)).1
      (maxActs / 4)).1
    (maxActs / 4)
  omega

/-- C2 counterexample: with every document-type query serving two fresh
documents, a `maxActs = 10` run saves 20 documents, refuting the claimed
bound `4 * floor(10 / 4) = 8`. -/
theorem budget_total_counterexample :
    (scrape_comprehensive_legal_acts envC2 2024 st0 10).2 = 20 ∧
    ¬ ((scrape_comprehensive_legal_acts envC2 2024 st0 10).2 ≤ 4 * (10 / 4)) :=
  ⟨by decide, by decide⟩

/-- C9: the processed-identifiers registry only grows during a run — every
identifier known when `scrape_comprehensive_legal_acts` starts is still
known when it finishes — and at startup it is seeded with exactly the
non-null identifiers stored in the database. -/
theorem registry_monotone_seeded (env : Env) (cy : Nat) (st : ScrapeState)
    (maxActs : Nat) (db : List LegalActRow) :
    st.processed ⊆ (scrape_comprehensive_legal_acts env cy st maxActs).1.processed ∧
    (∀ c : String, c ∈ (initScrapeState db).processed ↔ ∃ r ∈ db, r.celex_number = some c) := by
  constructor
  · simp only [scrape_comprehensive_legal_acts]
    intro x hx
    exact scrape_recent_mono env _ (maxActs / 4)
      (scrape_by_subjects_mono env _ (maxActs / 4)
        (scrape_by_years_mono env cy _ (maxActs / 4)
          (scrape_by_document_types_mono env st (maxActs / 4) hx)))
  · intro c
    simp [initScrapeState, load_existing_celexes, List.mem_filterMap]

/-- `orE` is associative — the algebra of layered fallbacks. -/
lemma orE_assoc (a b c : Option String) : orE (orE a b) c = orE a (orE b c) := by
  cases a <;> rfl

/-- The table-scan step in parallel-update form: each field is overwritten
exactly when its branch is the first matching one. -/
lemma tableStep_eq (m : Metadata) (r : String × String) :
    tableStep m r =
      { m with
        subject_matter := if pSubK r then some r.2 else m.subject_matter
        directory_code := if eDirT r then some r.2 else m.directory_code
        keywords := if eKeyT r then some r.2 else m.keywords
        date_force := if eForceT r then some r.2 else m.date_force
        date_end_validity := if eValT r then some r.2 else m.date_end_validity } := by
  cases h1 : pSubK r <;> cases h2 : pDirRawT r <;> cases h3 : pKeyRawT r <;>
    cases h4 : pForceRaw r <;> cases h5 : pValRaw r <;>
    simp [tableStep, eDirT, eKeyT, eForceT, eValT, h1, h2, h3, h4, h5]

/-- The definition-list step in parallel-update form. -/
lemma dlStep_eq (m : Metadata) (r : String × String) :
    dlStep m r =
      { m with
        subject_matter := if pSubK r then some r.2 else m.subject_matter
        directory_code := if eDirD r then some r.2 else m.directory_code
        keywords := if eKeyD r then some r.2 else m.keywords } := by
  cases h1 : pSubK r <;> cases h2 : pDirRawD r <;> cases h3 : pKeyRawD r <;>
    simp [dlStep, eDirD, eKeyD, h1, h2, h3]

lemma ite_orE (b : Bool) (v : String) (x : Option String) :
    (if b then some v else x) = orE (if b then some v else none) x := by
  cases b <;> rfl

lemma orE_none (b : Option String) : orE none b = b := rfl

lemma orE_some (v : String) (b : Option String) : orE (some v) b = some v := rfl

lemma tableFold_subject (rows : List (String × String)) : ∀ m : Metadata,
    (rows.foldl tableStep m).subject_matter
      = orE (lastVal pSubK rows) m.subject_matter := by
  induction rows with
  | nil => intro m; rfl
  | cons r rs ih =>
    intro m
    simp only [List.foldl_cons]
    rw [ih, tableStep_eq]
    simp only [lastVal, orE_assoc]
    cases hp : pSubK r <;> simp [hp, orE_none, orE_some]

lemma tableFold_directory (rows : List (String × String)) : ∀ m : Metadata,
    (rows.foldl tableStep m).directory_code
      = orE (lastVal eDirT rows) m.directory_code := by
  induction rows with
  | nil => intro m; rfl
  | cons r rs ih =>
    intro m
    simp only [List.foldl_cons]
    rw [ih, tableStep_eq]
    simp only [lastVal, orE_assoc]
    cases hp : eDirT r <;> simp [hp, orE_none, orE_some]

lemma tableFold_keywords (rows : List (String × String)) : ∀ m : Metadata,
    (rows.foldl tableStep m).keywords = orE (lastVal eKeyT rows) m.keywords := by
  induction rows with
  | nil => intro m; rfl
  | cons r rs ih =>
    intro m
    simp only [List.foldl_cons]
    rw [ih, tableStep_eq]
    simp only [lastVal, orE_assoc]
    cases hp : eKeyT r <;> simp [hp, orE_none, orE_some]

lemma tableFold_force (rows : List (String × String)) : ∀ m : Metadata,
    (rows.foldl tableStep m).date_force = orE (lastVal eForceT rows) m.date_force := by
  induction rows with
  | nil => intro m; rfl
  | cons r rs ih =>
    intro m
    simp only [List.foldl_cons]
    rw [ih, tableStep_eq]
    simp only [lastVal, orE_assoc]
    cases hp : eForceT r <;> simp [hp, orE_none, orE_some]

lemma tableFold_validity (rows : List (String × String)) : ∀ m : Metadata,
    (rows.foldl tableStep m).date_end_validity
      = orE (lastVal eValT rows) m.date_end_validity := by
  induction rows with
  | nil => intro m; rfl
  | cons r rs ih =>
    intro m
    simp only [List.foldl_cons]
    rw [ih, tableStep_eq]
    simp only [lastVal, orE_assoc]
    cases hp : eValT r <;> simp [hp, orE_none, orE_some]

lemma tableFold_rest (rows : List (String × String)) : ∀ m : Metadata,
    ((rows.foldl tableStep m).legal_basis = m.legal_basis)
    ∧ ((rows.foldl tableStep m).procedure = m.procedure)
    ∧ ((rows.foldl tableStep m).addressee = m.addressee) := by
  induction rows with
  | nil => intro m; exact ⟨rfl, rfl, rfl⟩
  | cons r rs ih =>
    intro m
    simp only [List.foldl_cons]
    refine ⟨?_, ?_, ?_⟩
    · rw [(ih (tableStep m r)).1, tableStep_eq]
    · rw [(ih (tableStep m r)).2.1, tableStep_eq]
    · rw [(ih (tableStep m r)).2.2, tableStep_eq]

lemma dlFold_subject (rows : List (String × String)) : ∀ m : Metadata,
    (rows.foldl dlStep m).subject_matter = orE (lastVal pSubK rows) m.subject_matter := by
  induction rows with
  | nil => intro m; rfl
  | cons r rs ih =>
    intro m
    simp only [List.foldl_cons]
    rw [ih, dlStep_eq]
    simp only [lastVal, orE_assoc]
    cases hp : pSubK r <;> simp [hp, orE_none, orE_some]

lemma dlFold_directory (rows : List (String × String)) : ∀ m : Metadata,
    (rows.foldl dlStep m).directory_code = orE (lastVal eDirD rows) m.directory_code := by
  induction rows with
  | nil => intro m; rfl
  | cons r rs ih =>
    intro m
    simp only [List.foldl_cons]
    rw [ih, dlStep_eq]
    simp only [lastVal, orE_assoc]
    cases hp : eDirD r <;> simp [hp, orE_none, orE_some]

lemma dlFold_keywords (rows : List (String × String)) : ∀ m : Metadata,
    (rows.foldl dlStep m).keywords = orE (lastVal eKeyD rows) m.keywords := by
  induction rows with
  | nil => intro m; rfl
  | cons r rs ih =>
    intro m
    simp only [List.foldl_cons]
    rw [ih, dlStep_eq]
    simp only [lastVal, orE_assoc]
    cases hp : eKeyD r <;> simp [hp, orE_none, orE_some]

lemma dlFold_rest (rows : List (String × String)) : ∀ m : Metadata,
    ((rows.foldl dlStep m).date_force = m.date_force)
    ∧ ((rows.foldl dlStep m).date_end_validity = m.date_end_validity)
    ∧ ((rows.foldl dlStep m).legal_basis = m.legal_basis)
    ∧ ((rows.foldl dlStep m).procedure = m.procedure)
    ∧ ((rows.foldl dlStep m).addressee = m.addressee) := by
  induction rows with
  | nil => intro m; exact ⟨rfl, rfl, rfl, rfl, rfl⟩
  | cons r rs ih =>
    intro m
    simp only [List.foldl_cons]
    refine ⟨?_, ?_, ?_, ?_, ?_⟩
    · rw [(ih (dlStep m r)).1, dlStep_eq]
    · rw [(ih (dlStep m r)).2.1, dlStep_eq]
    · rw [(ih (dlStep m r)).2.2.1, dlStep_eq]
    · rw [(ih (dlStep m r)).2.2.2.1, dlStep_eq]
    · rw [(ih (dlStep m r)).2.2.2.2, dlStep_eq]

/-- C4 (amended): the extractor runs the attribute layer, then the table
scan, then the definition-list scan, but each later layer OVERWRITES the
fields it matches instead of keeping the earlier value: per field, the last
matching definition-list pair wins over the last matching table row, which
wins over the first attribute alias hit; a field no layer matches is absent;
`legal_basis`, `procedure` and `addressee` are served by the attribute layer
only. -/
theorem metadata_layer_order_amended (page : DetailPage) :
    extract_comprehensive_metadata page = amendedMetadata page := by
  unfold extract_comprehensive_metadata amendedMetadata
  ext
  · rw [dlFold_subject, tableFold_subject]
  · rw [dlFold_directory, tableFold_directory]
  · rw [(dlFold_rest page.dlPairs _).1, tableFold_force]
  · rw [(dlFold_rest page.dlPairs _).2.1, tableFold_validity]
  · rw [dlFold_keywords, tableFold_keywords]
  · rw [(dlFold_rest page.dlPairs _).2.2.1, (tableFold_rest page.tableRows _).1]
  · rw [(dlFold_rest page.dlPairs _).2.2.2.1, (tableFold_rest page.tableRows _).2.1]
  · rw [(dlFold_rest page.dlPairs _).2.2.2.2, (tableFold_rest page.tableRows _).2.2]

/-- C4 counterexample: on a page where the attribute layer finds subject
matter "A", a later metadata-table row with a subject key replaces it with
"B" — the first non-empty match does not win. -/
theorem metadata_first_match_counterexample :
    (metadataLayer1 cpage).subject_matter = some "A" ∧
    (extract_comprehensive_metadata cpage).subject_matter = some "B" ∧
    some "B" ≠ (some "A" : Option String) :=
  ⟨rfl, rfl, by decide⟩

/-- C5: the result parser is total (never raises); each field is the first
matching selector's text and is absent when no selector matches; and it
returns a stub exactly when an identifier is resolved — by the URL rule on
the title link or the text rule on a celex selector — the stub carrying that
identifier. -/
theorem parser_total_iff_identifier (item : ResultItem) :
    parse_search_result item =
      match resolveId item with
      | none => none
      | some c =>
        some { title := (firstHit id item.titleSel).map Prod.fst
               url := (firstHit id item.titleSel).map (fun p => url_join p.2)
               celex_number := some c
               document_type := firstHit id item.docTypeSel
               date_document := firstHit id item.dateSel
               summary := firstHit id item.summarySel } := by
  unfold parse_search_result resolveId
  rcases ht : firstHit id item.titleSel with _ | p
  · rcases hc : firstHit (fun o => o.bind extract_celex_from_text) item.celexSel with _ | c
    · simp [orE, hc]
    · simp [orE, hc]
  · rcases hu : extract_celex_from_url p.2 with _ | c
    · rcases hc : firstHit (fun o => o.bind extract_celex_from_text) item.celexSel with _ | c2
      · simp [orE, hu, hc]
      · simp [orE, hu, hc]
    · simp [orE, hu]

/-- Rows surviving a filter against a key cannot satisfy that key. -/
lemma filter_not_filter (l : List LegalActRow) (p : LegalActRow → Bool) :
    (l.filter (fun r => !(p r))).filter p = [] := by
  induction l with
  | nil => rfl
  | cons r rs ih => cases hp : p r <;> simp [List.filter_cons, hp, ih]

/-- C7: the upsert is idempotent by identifier — saving two acts that carry
the same non-null identifier (and titles, which the schema requires) leaves
exactly one stored row for that identifier, and that row holds the second
act's field values. -/
theorem upsert_idempotent_by_identifier (db : List LegalActRow) (d1 d2 : Act)
    (c t1 t2 : String) (h1 : d1.celex_number = some c) (h2 : d2.celex_number = some c)
    (h3 : d1.title = some t1) (h4 : d2.title = some t2) (h5 : d1 ≠ d2) :
    ∃ db1 db2, save_legal_act db d1 = some db1 ∧ save_legal_act db1 d2 = some db2 ∧
      db2.filter (fun r => r.celex_number == some c) = [mkLegalActRow d2 t2] := by
  have e1 : save_legal_act db d1
      = some (db.filter (fun r => !(r.celex_number == some c)) ++ [mkLegalActRow d1 t1]) := by
    simp [save_legal_act, h3, h1]
  have e2 : save_legal_act
      (db.filter (fun r => !(r.celex_number == some c)) ++ [mkLegalActRow d1 t1]) d2
      = some (((db.filter (fun r => !(r.celex_number == some c)) ++ [mkLegalActRow d1 t1]).filter
            (fun r => !(r.celex_number == some c))) ++ [mkLegalActRow d2 t2]) := by
    simp [save_legal_act, h4, h2]
  refine ⟨_, _, e1, e2, ?_⟩
  rw [List.filter_append, filter_not_filter]
  simp [List.filter_cons, mkLegalActRow, h2]

/-- C7: the upsert is idempotent by identifier — saving two acts that carry
the same non-null identifier (and titles, which the schema requires) leaves
exactly one stored row for that identifier, and that row holds the second
act's field values. -/
theorem upsert_idempotent_by_identifier_witness :
    upD1.celex_number = some "32019R0001" ∧ upD2.celex_number = some "32019R0001" ∧
    upD1.title = some "old title" ∧ upD2.title = some "new title" ∧ upD1 ≠ upD2 ∧
    (∃ db1 db2, save_legal_act [] upD1 = some db1 ∧ save_legal_act db1 upD2 = some db2 ∧
      db2.filter (fun r => r.celex_number == some "32019R0001")
        = [mkLegalActRow upD2 "new title"]) :=
  ⟨rfl, rfl, rfl, rfl, by decide,
    upsert_idempotent_by_identifier [] upD1 upD2 "32019R0001" "old title" "new title"
      rfl rfl rfl rfl (by decide)⟩

/-- C10: an enriched act whose title is still absent cannot be stored — the
`NOT NULL` title column makes `save_legal_act` fail — so its worker task
contributes nothing: the database and the registry are unchanged and the
saved count stays 0. -/
theorem missing_title_persistence_fails (env : Env) (st : ScrapeState) (a d : Act)
    (hg : get_detailed_act_info env st.processed a = some d) (ht : d.title = none) :
    save_legal_act st.db d = none ∧ processOne env st a = (st, 0) := by
  have hs : save_legal_act st.db d = none := by simp [save_legal_act, ht]
  refine ⟨hs, ?_⟩
  unfold processOne
  simp only [hg, hs]

/-- C10 witness: a stub with no title enriched from a detail page with no
title element. -/
theorem missing_title_persistence_fails_witness :
    get_detailed_act_info envT st0.processed enA = some dXres ∧ dXres.title = none ∧
    (save_legal_act st0.db dXres = none ∧ processOne envT st0 enA = (st0, 0)) :=
  ⟨rfl, rfl, missing_title_persistence_fails envT st0 enA dXres rfl rfl⟩

/-- C1 (evaluated at the failing schedule): the membership check and the
insertion are two separate lock acquisitions, so the interleaving
w1-check, w2-check, w1-fetch, w1-save, w2-fetch, w2-save performs the detail
fetch (and the save) twice for the same identifier; only the fully
sequential schedule fetches once. -/
theorem dedup_check_not_atomic_eval :
    (raceRun "X" [true, false, true, true, false, false] raceInit).fetches = 2 ∧
    (raceRun "X" [true, false, true, true, false, false] raceInit).saves = 2 ∧
    (raceRun "X" [true, true, true, false, false, false] raceInit).fetches = 1 :=
  ⟨rfl, rfl, rfl⟩

/-- A match of the ten-character pattern with `[A-Za-z]` letter has the
CELEX shape. -/
lemma celexHead_alpha_shape : ∀ (l m : List Char),
    celexHead Char.isAlpha l = some m → isCelexShape m = true := by
  intro l m h
  unfold celexHead at h
  split at h
  next d1 d2 d3 d4 d5 a e1 e2 e3 e4 rest =>
    split at h
    next hcond =>
      cases h
      simpa [isCelexShape] using hcond
    next => cases h
  next => cases h

/-- A match of the ten-character pattern with `[A-Z]` letter has the CELEX
shape. -/
lemma celexHead_upper_shape : ∀ (l m : List Char),
    celexHead Char.isUpper l = some m → isCelexShape m = true := by
  intro l m h
  unfold celexHead at h
  split at h
  next d1 d2 d3 d4 d5 a e1 e2 e3 e4 rest =>
    split at h
    next hcond =>
      cases h
      simp only [Bool.and_eq_true] at hcond
      obtain ⟨⟨⟨⟨⟨⟨⟨⟨⟨hd1, hd2⟩, hd3⟩, hd4⟩, hd5⟩, ha⟩, he1⟩, he2⟩, he3⟩, he4⟩ := hcond
      simp [isCelexShape, Char.isAlpha, hd1, hd2, hd3, hd4, hd5, ha, he1, he2, he3, he4]
    next => cases h
  next => cases h

/-- Whatever the strict `CELEX:?(…)` attempt returns has the CELEX shape. -/
lemma tryCelexColonAt_shape (l m : List Char) (h : tryCelexColonAt l = some m) :
    isCelexShape m = true := by
  unfold tryCelexColonAt at h
  split at h
  · split at h
    · split at h
      next m2 hm2 =>
        cases h
        exact celexHead_alpha_shape _ _ hm2
      next => exact celexHead_alpha_shape _ _ h
    · exact celexHead_alpha_shape _ _ h
  · cases h

/-- Whatever the strict URL pattern search returns has the CELEX shape. -/
lemma searchCelexColon_shape : ∀ (l m : List Char),
    searchCelexColon l = some m → isCelexShape m = true := by
  intro l
  induction l with
  | nil => intro m h; simp [searchCelexColon] at h
  | cons c rest ih =>
    intro m h
    unfold searchCelexColon at h
    rcases htry : tryCelexColonAt (c :: rest) with _ | m2
    · simp only [htry] at h
      exact ih m h
    · simp only [htry] at h
      cases h
      exact tryCelexColonAt_shape _ _ htry

/-- Whatever the text pattern search returns has the CELEX shape. -/
lemma searchCelexText_shape : ∀ (l : List Char) (pre : Option Char) (m : List Char),
    searchCelexText pre l = some m → isCelexShape m = true := by
  intro l
  induction l with
  | nil => intro pre m h; simp [searchCelexText] at h
  | cons c rest ih =>
    intro pre m h
    unfold searchCelexText at h
    rcases hb : (if boundaryBefore pre then celexHead Char.isUpper (c :: rest) else none)
      with _ | m2
    · simp only [hb] at h
      exact ih (some c) m h
    · simp only [hb] at h
      cases hba : boundaryAfterOk ((c :: rest).drop 10)
      · simp only [hba, Bool.false_eq_true, if_false] at h
        exact ih (some c) m h
      · simp only [hba, if_true] at h
        cases h
        cases hbb : boundaryBefore pre
        · simp [hbb] at hb
        · simp only [hbb, if_true] at hb
          exact celexHead_upper_shape _ _ hb

/-- C8 (amended): every identifier the text rule extracts, and every
identifier the URL rule's primary `CELEX:…` pattern extracts, matches the
fixed 5-digits/1-letter/4-digits shape; the URL rule's `celex=`/`celex:`
fallback is exempt — it can return arbitrary non-empty strings. -/
theorem identifier_shape_amended (s m : String)
    (h : extract_celex_from_text s = some m ∨ searchCelexColon s.data = some m.data) :
    isCelexShape m.data = true := by
  rcases h with h | h
  · unfold extract_celex_from_text at h
    rcases hx : searchCelexText none s.data with _ | l
    · simp [hx] at h
    · simp only [hx, Option.map_some'] at h
      cases h
      exact searchCelexText_shape _ _ _ hx
  · exact searchCelexColon_shape _ _ h

/-- C8 witness: `32016R0679` extracted from free text has the shape. -/
theorem identifier_shape_amended_witness : isCelexShape ("32016R0679".data) = true :=
  identifier_shape_amended "Regulation 32016R0679 text" "32016R0679" (Or.inl (by decide))

/-- C8 counterexample: from `x?celex=FOO` the URL rule extracts `FOO`,
which does not match the 5-digits/1-letter/4-digits shape, and no such
pattern occurs in the input (the text rule finds nothing). -/
theorem identifier_shape_counterexample :
    extract_celex_from_url "x?celex=FOO" = some "FOO" ∧
    isCelexShape ("FOO".data) = false ∧
    extract_celex_from_text "x?celex=FOO" = none :=
  ⟨by decide, by decide, by decide⟩
